import Mathlib

/-!
Verification of the transaction-assembly and signing pipeline of a
command-line tool for composing, signing and submitting blockchain
transactions.  The definitions below are a shallow embedding of the
Rust sources (`src/common.rs` and the command modules); theorems check
the stated design properties against this embedding.

Strings from the source are modelled over `List Char`; Rust `u128`/`u64`
arithmetic is modelled on `Nat` with explicit bound checks mirroring
`checked_mul`/`checked_add`.
-/

set_option maxRecDepth 4096

namespace NearCli

abbrev AccountId := String
abbrev PublicKey := Nat
abbrev CryptoHash := Nat
abbrev Balance := Nat
abbrev Nonce := Nat
abbrev HdPath := String

/-- The largest value of a Rust `u128`. -/
def U128_MAX : Nat := 2 ^ 128 - 1

/-- The largest value of a Rust `u64`. -/
def U64_MAX : Nat := 2 ^ 64 - 1

/-- Rust `str::trim` from the start of a string (whitespace removal). -/
def trimLeftChars (s : List Char) : List Char := s.dropWhile Char.isWhitespace

/-- Rust `str::trim` from the end of a string (whitespace removal). -/
def trimRightChars (s : List Char) : List Char :=
  (s.reverse.dropWhile Char.isWhitespace).reverse

/-- Rust `str::trim`: whitespace removed from both ends. -/
def trimChars (s : List Char) : List Char := trimRightChars (trimLeftChars s)

/-- Rust `str::trim_end_matches(char::is_alphabetic)`: alphabetic characters
removed from the end. -/
def trimEndAlphabetic (s : List Char) : List Char :=
  (s.reverse.dropWhile Char.isAlpha).reverse

/-- Fuelled core of `trimStartOccurrences`: strips the pattern from the front
as long as it is present; each step consumes at least one character, so a fuel
of `s.length` is enough. -/
def trimStartOccurrencesAux : Nat → List Char → List Char → List Char
  | 0, _, s => s
  | fuel + 1, pat, s =>
    if pat.isEmpty then s
    else if pat.isPrefixOf s then trimStartOccurrencesAux fuel pat (s.drop pat.length)
    else s

/-- Rust `str::trim_start_matches(&str)`: repeatedly removes the pattern from
the front while it matches (an empty pattern removes nothing). -/
def trimStartOccurrences (pat s : List Char) : List Char :=
  trimStartOccurrencesAux s.length pat s

/-- Rust `str::to_uppercase` restricted to the ASCII inputs the parsers see. -/
def toUpperChars (s : List Char) : List Char := s.map Char.toUpper

/-- Rust `str::split(c)`: split at every occurrence of the separator; the
result always has at least one piece and keeps empty pieces. -/
def splitOnChar (c : Char) : List Char → List (List Char)
  | [] => [[]]
  | x :: xs =>
    match splitOnChar c xs with
    | [] => [[]]
    | y :: ys => if x = c then [] :: y :: ys else (x :: y) :: ys

/-- Numeric value of a list of decimal digits, most significant first. -/
def digitsToNat (l : List Char) : Nat :=
  l.foldl (fun acc c => acc * 10 + (c.toNat - 48)) 0

/-- Rust `str::parse::<uN>()` with `maxVal` the largest representable value:
an optional leading `+`, then decimal digits; empty input, a non-digit and
overflow are the error cases, with Rust's error messages. -/
def parseUInt (maxVal : Nat) (s : List Char) : Except String Nat :=
  if s.isEmpty then .error "cannot parse integer from empty string"
  else
    let digits := match s with
      | '+' :: rest => rest
      | _ => s
    if digits.isEmpty then .error "invalid digit found in string"
    else if digits.all Char.isDigit then
      if digitsToNat digits ≤ maxVal then .ok (digitsToNat digits)
      else .error "number too large to fit in target type"
    else .error "invalid digit found in string"

/-- `NearBalance` (`src/common.rs`): a wrapper around a `u128` amount of
yoctoNEAR. -/
structure NearBalance where
  yoctonear_amount : Balance
deriving DecidableEq, Repr

/-- `NearBalance::from_yoctonear`. -/
def NearBalance.from_yoctonear (n : Nat) : NearBalance := ⟨n⟩

/-- `NearBalance::to_yoctonear`. -/
def NearBalance.to_yoctonear (b : NearBalance) : Nat := b.yoctonear_amount

/-- The `"N" | "NEAR"` branch of `NearBalance::from_str`: split the numeric
part on `.`; one piece is whole NEAR, two pieces are integer and fractional
parts with the fractional part limited to 24 digits; `checked_mul` and
`checked_add` overflow checks are explicit bound checks against `u128`. -/
def nearBranch (num : List Char) : Except String Nat :=
  match splitOnChar '.' num with
  | [intPart, fracPart] =>
    match parseUInt U128_MAX intPart with
    | .error e => .error ("Near Balance: " ++ e)
    | .ok n =>
      if n * 10 ^ 24 ≤ U128_MAX then
        if fracPart.length ≤ 24 then
          match parseUInt U128_MAX fracPart with
          | .error e => .error ("Near Balance: " ++ e)
          | .ok f =>
            if f * 10 ^ (24 - fracPart.length) ≤ U128_MAX then
              if n * 10 ^ 24 + f * 10 ^ (24 - fracPart.length) ≤ U128_MAX then
                .ok (n * 10 ^ 24 + f * 10 ^ (24 - fracPart.length))
              else .error "Near Balance: underflow or overflow happens"
            else .error "Near Balance: underflow or overflow happens"
        else .error "Near Balance: too large fractional part of a number"
      else .error "Near Balance: underflow or overflow happens"
  | [intPart] =>
    match parseUInt U128_MAX intPart with
    | .error e => .error ("Near Balance: " ++ e)
    | .ok n =>
      if n * 10 ^ 24 ≤ U128_MAX then .ok (n * 10 ^ 24)
      else .error "Near Balance: underflow or overflow happens"
  | _ => .error "Near Balance: incorrect number entered"

/-- The numeric part of a balance/gas string: `s.trim().trim_end_matches(char::is_alphabetic).trim()`. -/
def numPartOf (s : String) : List Char :=
  trimChars (trimEndAlphabetic (trimChars s.data))

/-- The currency/unit part of a balance/gas string:
`s.trim().trim_start_matches(&num).trim().to_uppercase()`. -/
def currencyPartOf (s : String) : List Char :=
  toUpperChars (trimChars (trimStartOccurrences (numPartOf s) (trimChars s.data)))

/-- `NearBalance::from_str` (`src/common.rs`): extract numeric part and
currency suffix, then dispatch on the suffix; `N`/`NEAR` are whole NEAR with
up to 24 fractional digits, the `yocto` family is raw yoctoNEAR, anything
else is rejected. -/
def NearBalance.from_str (s : String) : Except String NearBalance :=
  let num := numPartOf s
  let currency := currencyPartOf s
  if currency = ("N").data ∨ currency = ("NEAR").data then
    match nearBranch num with
    | .ok v => .ok ⟨v⟩
    | .error e => .error e
  else if currency = ("YN").data ∨ currency = ("YNEAR").data ∨
      currency = ("YOCTONEAR").data ∨ currency = ("YOCTON").data then
    match parseUInt U128_MAX num with
    | .ok v => .ok ⟨v⟩
    | .error e => .error ("Near Balance: " ++ e)
  else .error "Near Balance: incorrect currency value entered"

/-- `NearGas` (`src/common.rs`): a wrapper around a `u64` amount of gas. -/
structure NearGas where
  inner : Nat
deriving DecidableEq, Repr

/-- `NearGas::into_tera_gas` (`src/common.rs`): parse a decimal gas amount in
teragas into raw gas units, the fractional part limited to 12 digits, with
`u64` overflow checks. -/
def NearGas.into_tera_gas (num : List Char) : Except String Nat :=
  match splitOnChar '.' num with
  | [intPart, fracPart] =>
    match parseUInt U64_MAX intPart with
    | .error e => .error ("Near Gas: " ++ e)
    | .ok n =>
      if n * 10 ^ 12 ≤ U64_MAX then
        if fracPart.length ≤ 12 then
          match parseUInt U64_MAX fracPart with
          | .error e => .error ("Near Gas: " ++ e)
          | .ok f =>
            if f * 10 ^ (12 - fracPart.length) ≤ U64_MAX then
              if n * 10 ^ 12 + f * 10 ^ (12 - fracPart.length) ≤ U64_MAX then
                .ok (n * 10 ^ 12 + f * 10 ^ (12 - fracPart.length))
              else .error "Near Gas: underflow or overflow happens"
            else .error "Near Gas: underflow or overflow happens"
        else .error "Near Gas: too large fractional part of a number"
      else .error "Near Gas: underflow or overflow happens"
  | [intPart] =>
    match parseUInt U64_MAX intPart with
    | .error e => .error ("Near Gas: " ++ e)
    | .ok n =>
      if n * 10 ^ 12 ≤ U64_MAX then .ok (n * 10 ^ 12)
      else .error "Near Gas: underflow or overflow happens"
  | _ => .error "Near Gas: incorrect number entered"

/-- `NearGas::from_str` (`src/common.rs`): numeric part and unit suffix;
`T`/`TGAS`/`TERAGAS` are teragas, `GIGAGAS`/`GGAS` divide the teragas value
by 1000, anything else is rejected. -/
def NearGas.from_str (s : String) : Except String NearGas :=
  let num := numPartOf s
  let currency := currencyPartOf s
  if currency = ("T").data ∨ currency = ("TGAS").data ∨ currency = ("TERAGAS").data then
    match NearGas.into_tera_gas num with
    | .ok v => .ok ⟨v⟩
    | .error e => .error e
  else if currency = ("GIGAGAS").data ∨ currency = ("GGAS").data then
    match NearGas.into_tera_gas num with
    | .ok v => .ok ⟨v / 1000⟩
    | .error e => .error e
  else .error "Near Gas: incorrect currency value entered"

/-! ## Access-key method names and the flat/structured bridge -/

/-- The double-quote character checked by `FunctionCallType::input_method_names`. -/
def quoteChar : Char := Char.ofNat 34

/-- The comma-splitting of a method-name string shared by both input paths:
Rust `s.split(',').map(String::from).collect()` guarded by `is_empty`. -/
def methodNamesSplit (s : String) : List String :=
  if s.data.isEmpty then [] else (splitOnChar ',' s.data).map String.mk

/-- The `Some(cli_method_names)` arm of `FunctionCallType::from`
(`function_call_type/mod.rs`, lines 83–95): an empty CLI string is the empty
list, otherwise the string is split on commas.  No quote check occurs here. -/
def methodNamesFromCliString (cli_method_names : String) : List String :=
  methodNamesSplit cli_method_names

/-- `FunctionCallType::input_method_names` (`function_call_type/mod.rs`,
lines 117–150), the text entered at the interactive prompt: a string
containing a double quote is first cleared, then an empty string is the empty
list and otherwise the string is split on commas. -/
def methodNamesFromPromptInput (input : String) : List String :=
  let input' := if input.data.contains quoteChar then "" else input
  methodNamesSplit input'

/-- `FunctionCallType` (`function_call_type/mod.rs`): the resolved structured
value.  Its `next_action` chain pointer lives in the enclosing chain module
(not under the verified sources) and is not part of this value's payload. -/
structure FunctionCallType where
  allowance : Option Balance
  receiver_id : AccountId
  method_names : List String
deriving DecidableEq, Repr

/-- `CliFunctionCallType` (`function_call_type/mod.rs`): the flat CLI-side
value, every payload field optional. -/
structure CliFunctionCallType where
  allowance : Option Balance
  receiver_id : Option AccountId
  method_names : Option String
deriving DecidableEq, Repr

/-- Rust `Vec::join(sep)` on strings, at the character-list level. -/
def joinSep (sep : List Char) : List (List Char) → List Char
  | [] => []
  | [x] => x
  | x :: y :: ys => x ++ sep ++ joinSep sep (y :: ys)

/-- `impl From<FunctionCallType> for CliFunctionCallType`
(`function_call_type/mod.rs`, lines 54–67): the allowance is unwrapped with
`unwrap_or_default` and re-wrapped in `Some`, and the method names are joined
with `", "`. -/
def FunctionCallType.toCli (t : FunctionCallType) : CliFunctionCallType :=
  { allowance := some (NearBalance.from_yoctonear ((t.allowance.getD 0))).to_yoctonear
    receiver_id := some t.receiver_id
    method_names := some (String.mk (joinSep ((", ").data) (t.method_names.map String.data))) }

/-- `FunctionCallType::from` (`function_call_type/mod.rs`, lines 69–114)
restricted to a fully-populated `CliFunctionCallType`: every `Some` field is
taken as-is (no prompting); `none` is returned when any field is absent,
marking that the source would fall back to the interactive prompt. -/
def FunctionCallType.fromCliFull (item : CliFunctionCallType) : Option FunctionCallType :=
  match item.allowance, item.receiver_id, item.method_names with
  | some cli_allowance, some cli_receiver_id, some cli_method_names =>
    some { allowance := some cli_allowance
           receiver_id := cli_receiver_id
           method_names := methodNamesFromCliString cli_method_names }
  | _, _, _ => none

/-! ## Transactions, actions and the action chain -/

/-- `near_primitives::account::AccessKeyPermission` as used by the add-key
actions: full access, or a function-call permission with optional allowance,
receiver and method-name allow-list. -/
inductive AccessKeyPermission where
  | fullAccess : AccessKeyPermission
  | functionCall (allowance : Option Balance) (receiver_id : AccountId)
      (method_names : List String) : AccessKeyPermission
deriving DecidableEq, Repr

/-- `near_primitives::account::AccessKey`. -/
structure AccessKey where
  nonce : Nonce
  permission : AccessKeyPermission
deriving DecidableEq, Repr

/-- `near_primitives::transaction::Action`, the variants built by the
command modules under verification. -/
inductive Action where
  | addKey (public_key : PublicKey) (access_key : AccessKey) : Action
  | deployContract (code : List Nat) : Action
  | createAccount : Action
  | transfer (deposit : Balance) : Action
  | deleteKey (public_key : PublicKey) : Action
deriving DecidableEq, Repr

/-- `near_primitives::transaction::Transaction`: the transaction skeleton
accumulated by the action chain and completed by the signer. -/
structure Transaction where
  signer_id : AccountId
  public_key : PublicKey
  nonce : Nonce
  receiver_id : AccountId
  block_hash : CryptoHash
  actions : List Action
deriving DecidableEq, Repr

/-- One action-chain step: `actions.push(action)` on a clone of the
prepopulated transaction's list, all other fields kept (`..prepopulated`). -/
def extendAction (tx : Transaction) (a : Action) : Transaction :=
  { tx with actions := tx.actions ++ [a] }

/-- A chain of `k` action-chain nodes processed in order, each performing its
`extendAction` step before recursing into the next node. -/
def processChain (tx : Transaction) (chain : List Action) : Transaction :=
  chain.foldl extendAction tx

/-- The `AddKey` action built by `FunctionCallType::process`
(`function_call_type/mod.rs`, lines 193–208). -/
def FunctionCallType.builtAction (self : FunctionCallType) (nonce : Nonce)
    (public_key : PublicKey) : Action :=
  .addKey public_key
    { nonce
      permission := .functionCall self.allowance self.receiver_id self.method_names }

/-- The transaction update of `FunctionCallType::process`
(`function_call_type/mod.rs`, lines 209–214): push the built action onto the
cloned action list, keep every other field. -/
def FunctionCallType.extendTransaction (self : FunctionCallType) (nonce : Nonce)
    (public_key : PublicKey) (prepopulated : Transaction) : Transaction :=
  { prepopulated with
    actions := prepopulated.actions ++ [self.builtAction nonce public_key] }

/-- The transaction update of `ContractFile::process`
(`add_command/contract_code/contract/mod.rs`, lines 180–190), with the bytes
read from the contract file passed in (the filesystem read is external). -/
def ContractFile.extendTransaction (code : List Nat) (prepopulated : Transaction) : Transaction :=
  { prepopulated with actions := prepopulated.actions ++ [Action.deployContract code] }

/-! ## Mode, the Ledger signer, and its network interaction -/

/-- `crate::common::ConnectionConfig`: the Network-mode endpoint choice; its
absence (`Option.none` at use sites) is Offline mode. -/
inductive ConnectionConfig where
  | testnet | mainnet | betanet
  | custom (url : String)
deriving DecidableEq, Repr

/-- A network query issued by the signing path. -/
inductive NetworkQuery where
  | viewAccessKey (account_id : AccountId) (public_key : PublicKey) : NetworkQuery
deriving DecidableEq, Repr

/-- The RPC query response used by `SignLedger::process`: the response-level
`block_hash`, and `some nonce` exactly when the response kind is
`QueryResponseKind::AccessKey`. -/
structure RpcQueryResponse where
  block_hash : CryptoHash
  kind_access_key_nonce : Option Nonce
deriving DecidableEq, Repr

/-- `CliSignLedger` (`sign_with_ledger/mod.rs`): the flat CLI-side signer
spec (the `submit` subcommand is not part of the signing data). -/
structure CliSignLedger where
  seed_phrase_hd_path : Option HdPath
  nonce : Option Nonce
  block_hash : Option CryptoHash
deriving DecidableEq, Repr

/-- `SignLedger` (`sign_with_ledger/mod.rs`): the resolved signer state. -/
structure SignLedger where
  seed_phrase_hd_path : HdPath
  signer_public_key : PublicKey
  nonce : Option Nonce
  block_hash : Option CryptoHash
deriving DecidableEq, Repr

/-- `SignLedger::from` (`sign_with_ledger/mod.rs`, lines 62–112): the HD path
comes from the CLI or the prompt, the public key from a device round trip on
that path; with a connection config present, `nonce` and `block_hash` are set
to `None`; without one they come from the CLI values or the prompts.
`devPub` models `near_ledger::get_public_key` and the `prompt*` arguments
model the interactive inputs. -/
def SignLedger.fromCli (devPub : HdPath → PublicKey) (item : CliSignLedger)
    (connection_config : Option ConnectionConfig)
    (promptHdPath : HdPath) (promptNonce : Nonce) (promptBlockHash : CryptoHash) :
    SignLedger :=
  let seed_phrase_hd_path := item.seed_phrase_hd_path.getD promptHdPath
  let signer_public_key := devPub seed_phrase_hd_path
  match connection_config with
  | some _ =>
    { seed_phrase_hd_path, signer_public_key, nonce := none, block_hash := none }
  | none =>
    { seed_phrase_hd_path, signer_public_key
      nonce := some (item.nonce.getD promptNonce)
      block_hash := some (item.block_hash.getD promptBlockHash) }

/-- A signed transaction: the device signature over the final unsigned
transaction, paired with that transaction. -/
structure SignedTransaction (σ : Type) where
  signature : σ
  transaction : Transaction

/-- `SignLedger::process` (`sign_with_ledger/mod.rs`, lines 128–283) up to
submission, instrumented with the list of network queries it issues.
`devSign` models `near_ledger::sign_transaction` (which may fail) and
`queryResp` models the RPC endpoint.  Offline (`none` config): the unsigned
transaction takes `public_key` from the signer and `nonce`/`block_hash` from
the stored options (`unwrap_or_default`), with no network query.  Network
(`some` config): one `ViewAccessKey` query; a non-access-key response kind is
the `Error current_nonce` failure; otherwise `nonce` is the queried nonce
plus one and `block_hash` is the response block hash. -/
def SignLedger.process (σ : Type) (devSign : Transaction → HdPath → Except String σ)
    (self : SignLedger) (prepopulated : Transaction)
    (connection_config : Option ConnectionConfig)
    (queryResp : NetworkQuery → Except String RpcQueryResponse) :
    List NetworkQuery × Except String (SignedTransaction σ) :=
  match connection_config with
  | none =>
    let unsigned : Transaction :=
      { prepopulated with
        public_key := self.signer_public_key
        nonce := self.nonce.getD 0
        block_hash := self.block_hash.getD 0 }
    match devSign unsigned self.seed_phrase_hd_path with
    | .ok signature => ([], .ok ⟨signature, unsigned⟩)
    | .error e => ([], .error ("Error occurred while signing the transaction: " ++ e))
  | some _ =>
    let q := NetworkQuery.viewAccessKey prepopulated.signer_id self.signer_public_key
    match queryResp q with
    | .error e => ([q], .error ("Failed to fetch public key information for nonce: " ++ e))
    | .ok resp =>
      match resp.kind_access_key_nonce with
      | none => ([q], .error "Error current_nonce")
      | some current_nonce =>
        let unsigned : Transaction :=
          { prepopulated with
            public_key := self.signer_public_key
            block_hash := resp.block_hash
            nonce := current_nonce + 1 }
        match devSign unsigned self.seed_phrase_hd_path with
        | .ok signature => ([q], .ok ⟨signature, unsigned⟩)
        | .error e => ([q], .error ("Error occurred while signing the transaction: " ++ e))

/-! ## The Submitter's broadcast-with-retry loop -/

/-- The shape of the `data` field of an RPC error: absent, a JSON string, or
some other JSON value. -/
inductive RpcErrorData where
  | str (s : String) : RpcErrorData
  | nonString : RpcErrorData
deriving DecidableEq, Repr

/-- The RPC error returned by a failed `broadcast_tx_commit` call. -/
structure RpcError where
  data : Option RpcErrorData
deriving DecidableEq, Repr

/-- Rust `str::contains(pat)`: the pattern occurs as a contiguous substring. -/
def containsSub (pat : List Char) : List Char → Bool
  | [] => pat.isEmpty
  | c :: rest => pat.isPrefixOf (c :: rest) || containsSub pat rest

/-- The timeout test of `Transaction::process`
(`send_signed_transaction/mod.rs`, lines 67–71): the error `data` is a JSON
string containing `"Timeout"`. -/
def RpcError.isTimeoutClass (e : RpcError) : Bool :=
  match e.data with
  | some (.str d) => containsSub (("Timeout").data) d.data
  | _ => false

/-- `Transaction::process` (`send_signed_transaction/mod.rs`, lines 51–84):
the broadcast loop, run against the finite list of responses the endpoint
returns on successive calls.  The result pairs the list of transaction
payloads sent (one per call, always `self.transaction`) with the outcome:
`none` when the response list ran out with the loop still retrying,
`some (.ok _)` on success, `some (.error _)` on a fatal non-timeout error. -/
def broadcastLoop (ω : Type) (tx : String) :
    List (Except RpcError ω) → List String × Option (Except String ω)
  | [] => ([], none)
  | r :: rest =>
    match r with
    | .ok response => ([tx], some (.ok response))
    | .error err =>
      if err.isTimeoutClass then
        let next := broadcastLoop ω tx rest
        (tx :: next.1, next.2)
      else ([tx], some (.error "Error transaction"))

/-! ## Concrete instances used to exercise the theorems -/

/-- A concrete prepopulated transaction skeleton. -/
def wPrepop : Transaction := ⟨"alice", 0, 0, "bob", 0, [Action.createAccount]⟩

/-- A transparent signature: the signed transaction together with the HD path
the device signed with, so that verification is checkable by equality. -/
def wSig : Type := Transaction × HdPath

/-- A device-signing model that always succeeds and records its inputs. -/
def wDevSign (tx : Transaction) (path : HdPath) : Except String wSig := .ok (tx, path)

/-- A device public-key model. -/
def wDevPub (_ : HdPath) : PublicKey := 7

/-- Verification for `wSig`: the signature covers exactly this transaction
and the key is the device key of the recorded path. -/
def wVerify (s : wSig) (pk : PublicKey) (tx : Transaction) : Bool :=
  decide (s.1 = tx) && decide (pk = wDevPub s.2)

/-- A concrete resolved Ledger signer in Network mode (no stored
nonce/block-hash), holding the device key of its path. -/
def wSelf : SignLedger := ⟨"path", 7, none, none⟩

/-- The transaction `wSelf` signs over `wPrepop` in Offline mode. -/
def wUnsignedOffline : Transaction := ⟨"alice", 7, 0, "bob", 0, [Action.createAccount]⟩

/-- The Offline-mode signed transaction over `wPrepop`. -/
def wStOffline : SignedTransaction wSig := ⟨(wUnsignedOffline, "path"), wUnsignedOffline⟩

/-- An RPC endpoint model answering every access-key query with nonce 5 at
block hash 99. -/
def wQueryResp : NetworkQuery → Except String RpcQueryResponse := fun _ => .ok ⟨99, some 5⟩

/-- The transaction `wSelf` signs over `wPrepop` in Network mode against
`wQueryResp`: nonce 6 (queried 5 plus one), block hash from the response. -/
def wUnsignedOnline : Transaction := ⟨"alice", 7, 6, "bob", 99, [Action.createAccount]⟩

/-- The Network-mode signed transaction over `wPrepop`. -/
def wStOnline : SignedTransaction wSig := ⟨(wUnsignedOnline, "path"), wUnsignedOnline⟩

/-- A timeout-class broadcast error. -/
def wTimeoutErr : RpcError := ⟨some (.str "Timeout expired")⟩

/-- A non-timeout broadcast error. -/
def wFatalErr : RpcError := ⟨some .nonString⟩


/-! ## Helper lemmas -/

theorem splitOnChar_eq_single {c : Char} : ∀ {l : List Char}, c ∉ l → splitOnChar c l = [l]
  | [], _ => rfl
  | x :: xs, h => by
    have hx : ¬ x = c := fun hh => h (by simp [hh])
    have hxs : c ∉ xs := fun hh => h (List.mem_cons_of_mem x hh)
    simp [splitOnChar, splitOnChar_eq_single hxs, hx]

theorem nearBranch_isOk_false_of_long_frac (num i f : List Char)
    (hsplit : splitOnChar '.' num = [i, f]) (hf : 24 < f.length) :
    (nearBranch num).isOk = false := by
  simp only [nearBranch, hsplit]
  split
  · rfl
  · split
    · rw [if_neg (by omega)]
      rfl
    · rfl


theorem nearBalance_isOk_false_of_long_frac (s : String) (i f : List Char)
    (hcur : currencyPartOf s = ("N").data ∨ currencyPartOf s = ("NEAR").data)
    (hsplit : splitOnChar '.' (numPartOf s) = [i, f]) (hf : 24 < f.length) :
    (NearBalance.from_str s).isOk = false := by
  have h := nearBranch_isOk_false_of_long_frac (numPartOf s) i f hsplit hf
  simp only [NearBalance.from_str, if_pos hcur]
  cases hb : nearBranch (numPartOf s) with
  | ok v => rw [hb] at h; exact Bool.noConfusion h
  | error e => rfl

theorem nearBalance_unknown_currency (s : String)
    (hcur : currencyPartOf s ∉ [("N").data, ("NEAR").data, ("YN").data,
      ("YNEAR").data, ("YOCTONEAR").data, ("YOCTON").data]) :
    NearBalance.from_str s = .error "Near Balance: incorrect currency value entered" := by
  simp only [List.mem_cons, List.mem_singleton, not_or] at hcur
  obtain ⟨h1, h2, h3, h4, h5, h6⟩ := hcur
  simp only [NearBalance.from_str, if_neg (by tauto : ¬(currencyPartOf s = ("N").data ∨ currencyPartOf s = ("NEAR").data)),
    if_neg (by tauto : ¬(currencyPartOf s = ("YN").data ∨ currencyPartOf s = ("YNEAR").data ∨
      currencyPartOf s = ("YOCTONEAR").data ∨ currencyPartOf s = ("YOCTON").data))]

theorem nearGas_tera_isOk_false_of_long_frac (num i f : List Char)
    (hsplit : splitOnChar '.' num = [i, f]) (hf : 12 < f.length) :
    (NearGas.into_tera_gas num).isOk = false := by
  simp only [NearGas.into_tera_gas, hsplit]
  split
  · rfl
  · split
    · rw [if_neg (by omega)]
      rfl
    · rfl

theorem nearGas_isOk_false_of_long_frac (s : String) (i f : List Char)
    (hcur : currencyPartOf s ∈ [("T").data, ("TGAS").data, ("TERAGAS").data,
      ("GIGAGAS").data, ("GGAS").data])
    (hsplit : splitOnChar '.' (numPartOf s) = [i, f]) (hf : 12 < f.length) :
    (NearGas.from_str s).isOk = false := by
  have h := nearGas_tera_isOk_false_of_long_frac (numPartOf s) i f hsplit hf
  simp only [List.mem_cons, List.not_mem_nil, or_false] at hcur
  cases hb : NearGas.into_tera_gas (numPartOf s) with
  | ok v => rw [hb] at h; exact Bool.noConfusion h
  | error e =>
    rcases hcur with h1 | h1 | h1 | h1 | h1
    · simp only [NearGas.from_str, if_pos (Or.inl h1), hb]; rfl
    · simp only [NearGas.from_str, if_pos (Or.inr (Or.inl h1)), hb]; rfl
    · simp only [NearGas.from_str, if_pos (Or.inr (Or.inr h1)), hb]; rfl
    · simp only [NearGas.from_str, if_pos (Or.inl h1), hb]; split <;> rfl
    · simp only [NearGas.from_str, if_pos (Or.inr h1), hb]; split <;> rfl

theorem nearGas_unknown_currency (s : String)
    (hcur : currencyPartOf s ∉ [("T").data, ("TGAS").data, ("TERAGAS").data,
      ("GIGAGAS").data, ("GGAS").data]) :
    NearGas.from_str s = .error "Near Gas: incorrect currency value entered" := by
  simp only [List.mem_cons, List.mem_singleton, not_or] at hcur
  obtain ⟨h1, h2, h3, h4, h5⟩ := hcur
  simp only [NearGas.from_str, if_neg (by tauto : ¬(currencyPartOf s = ("T").data ∨
      currencyPartOf s = ("TGAS").data ∨ currencyPartOf s = ("TERAGAS").data)),
    if_neg (by tauto : ¬(currencyPartOf s = ("GIGAGAS").data ∨ currencyPartOf s = ("GGAS").data))]


theorem broadcastLoop_timeouts_then_ok (ω : Type) (tx : String) (e : RpcError)
    (he : e.isTimeoutClass = true) (v : ω) :
    ∀ n : Nat, broadcastLoop ω tx (List.replicate n (Except.error e) ++ [Except.ok v]) =
      (List.replicate (n + 1) tx, some (Except.ok v))
  | 0 => by simp [broadcastLoop]
  | n + 1 => by
    have ih := broadcastLoop_timeouts_then_ok ω tx e he v n
    simp [List.replicate_succ, broadcastLoop, he, ih]

theorem broadcastLoop_timeouts_then_fatal (ω : Type) (tx : String) (e e' : RpcError)
    (he : e.isTimeoutClass = true) (he' : e'.isTimeoutClass = false) :
    ∀ (n : Nat) (rest : List (Except RpcError ω)),
      broadcastLoop ω tx (List.replicate n (Except.error e) ++ Except.error e' :: rest) =
        (List.replicate (n + 1) tx, some (Except.error "Error transaction"))
  | 0, rest => by simp [broadcastLoop, he']
  | n + 1, rest => by
    have ih := broadcastLoop_timeouts_then_fatal ω tx e e' he he' n rest
    simp [List.replicate_succ, broadcastLoop, he, ih]

theorem processChain_actions : ∀ (chain : List Action) (tx : Transaction),
    (processChain tx chain).actions = tx.actions ++ chain
  | [], tx => by simp [processChain]
  | a :: rest, tx => by
    have ih := processChain_actions rest (extendAction tx a)
    simp only [processChain, List.foldl_cons] at ih ⊢
    rw [ih]
    simp [extendAction]

theorem processChain_frame : ∀ (chain : List Action) (tx : Transaction),
    (processChain tx chain).signer_id = tx.signer_id ∧
    (processChain tx chain).receiver_id = tx.receiver_id ∧
    (processChain tx chain).public_key = tx.public_key ∧
    (processChain tx chain).nonce = tx.nonce ∧
    (processChain tx chain).block_hash = tx.block_hash
  | [], tx => by simp [processChain]
  | a :: rest, tx => by
    have ih := processChain_frame rest (extendAction tx a)
    simpa only [processChain, List.foldl_cons, extendAction] using ih


/-! ## Claims -/

/-- C3: a broadcast whose endpoint reports a timeout-class error N times and
then succeeds is retried with the identical encoded transaction each time and
returns the success outcome after exactly N retries (N+1 identical calls);
a non-timeout broadcast error is surfaced immediately as fatal, with no
retry, whether it is the first response or follows some timeouts. -/
theorem claim_C3 (ω : Type) (tx : String) (e e' : RpcError) (v : ω)
    (he : e.isTimeoutClass = true) (he' : e'.isTimeoutClass = false) :
    (∀ n : Nat, broadcastLoop ω tx (List.replicate n (Except.error e) ++ [Except.ok v]) =
      (List.replicate (n + 1) tx, some (Except.ok v))) ∧
    (∀ rest, broadcastLoop ω tx (Except.error e' :: rest) =
      ([tx], some (Except.error "Error transaction"))) ∧
    (∀ (n : Nat) rest,
      broadcastLoop ω tx (List.replicate n (Except.error e) ++ Except.error e' :: rest) =
        (List.replicate (n + 1) tx, some (Except.error "Error transaction"))) := by
  refine ⟨broadcastLoop_timeouts_then_ok ω tx e he v, fun rest => ?_,
    broadcastLoop_timeouts_then_fatal ω tx e e' he he'⟩
  simp [broadcastLoop, he']

/-- C3 witness: two timeouts then success yield three identical calls and the
success outcome; a non-timeout error is fatal on the first call. -/
theorem claim_C3_witness :
    broadcastLoop Nat ("tx") (List.replicate 2 (Except.error wTimeoutErr) ++ [Except.ok 0]) =
      (List.replicate 3 ("tx"), some (Except.ok 0)) ∧
    broadcastLoop Nat ("tx") [Except.error wFatalErr] =
      ([("tx")], some (Except.error "Error transaction")) :=
  ⟨(claim_C3 Nat ("tx") wTimeoutErr wFatalErr 0 (by decide) (by decide)).1 2,
   (claim_C3 Nat ("tx") wTimeoutErr wFatalErr 0 (by decide) (by decide)).2.1 []⟩

/-- C5: NearBalance parsing maps "10 NEAR" to 10·10^24 yoctoNEAR,
"10.055NEAR" to 10055·10^21, "100 ynear" to 100 yoctoNEAR; any NEAR-suffixed
input whose fractional part exceeds 24 digits is rejected, and any input
whose currency suffix is missing or unknown is rejected. -/
theorem claim_C5 :
    NearBalance.from_str ("10 NEAR") = .ok ⟨10 * 10 ^ 24⟩ ∧
    NearBalance.from_str ("10.055NEAR") = .ok ⟨10055 * 10 ^ 21⟩ ∧
    NearBalance.from_str ("100 ynear") = .ok ⟨100⟩ ∧
    (∀ (s : String) (i f : List Char),
      (currencyPartOf s = ("N").data ∨ currencyPartOf s = ("NEAR").data) →
      splitOnChar '.' (numPartOf s) = [i, f] → 24 < f.length →
      (NearBalance.from_str s).isOk = false) ∧
    (∀ s : String, currencyPartOf s ∉ [("N").data, ("NEAR").data, ("YN").data,
        ("YNEAR").data, ("YOCTONEAR").data, ("YOCTON").data] →
      NearBalance.from_str s = .error "Near Balance: incorrect currency value entered") :=
  ⟨rfl, rfl, rfl, nearBalance_isOk_false_of_long_frac, nearBalance_unknown_currency⟩

/-- C5 witness: a 25-digit fractional part is rejected; a missing suffix
("100") and an unknown suffix ("100 UAH") are rejected. -/
theorem claim_C5_witness :
    (NearBalance.from_str ("100.1111122222333334444455555 n")).isOk = false ∧
    NearBalance.from_str ("100") = .error "Near Balance: incorrect currency value entered" ∧
    NearBalance.from_str ("100 UAH") = .error "Near Balance: incorrect currency value entered" :=
  ⟨claim_C5.2.2.2.1 ("100.1111122222333334444455555 n") (("100").data)
      (("1111122222333334444455555").data) (by decide) (by decide) (by decide),
   claim_C5.2.2.2.2 ("100") (by decide),
   claim_C5.2.2.2.2 ("100 UAH") (by decide)⟩

/-- C6: NearGas parsing maps "10 tgas" to 10·10^12 gas and "10 gigagas" to
10·10^9 gas; any recognised-unit input whose fractional part exceeds 12
digits is rejected, and any input whose gas unit suffix is missing or
unknown is rejected. -/
theorem claim_C6 :
    NearGas.from_str ("10 tgas") = .ok ⟨10 * 10 ^ 12⟩ ∧
    NearGas.from_str ("10 gigagas") = .ok ⟨10 * 10 ^ 9⟩ ∧
    (∀ (s : String) (i f : List Char),
      currencyPartOf s ∈ [("T").data, ("TGAS").data, ("TERAGAS").data,
        ("GIGAGAS").data, ("GGAS").data] →
      splitOnChar '.' (numPartOf s) = [i, f] → 12 < f.length →
      (NearGas.from_str s).isOk = false) ∧
    (∀ s : String, currencyPartOf s ∉ [("T").data, ("TGAS").data, ("TERAGAS").data,
        ("GIGAGAS").data, ("GGAS").data] →
      NearGas.from_str s = .error "Near Gas: incorrect currency value entered") :=
  ⟨rfl, rfl, nearGas_isOk_false_of_long_frac, nearGas_unknown_currency⟩

/-- C6 witness: a 13-digit fractional part is rejected; a missing suffix
("100") is rejected. -/
theorem claim_C6_witness :
    (NearGas.from_str ("100.1111122222333 ggas")).isOk = false ∧
    NearGas.from_str ("100") = .error "Near Gas: incorrect currency value entered" :=
  ⟨claim_C6.2.2.1 ("100.1111122222333 ggas") (("100").data) (("1111122222333").data)
      (by decide) (by decide) (by decide),
   claim_C6.2.2.2 ("100") (by decide)⟩

/-- C8: each action-chain node's process step appends exactly one action to
the end of the action list and leaves every other transaction field (and all
previously appended actions) unchanged, so a chain of k actions processed in
order yields exactly the k actions appended in that order; the per-node
updates of `FunctionCallType::process` and `ContractFile::process` are
instances of this step. -/
theorem claim_C8 (tx : Transaction) (chain : List Action) :
    (processChain tx chain).actions = tx.actions ++ chain ∧
    (processChain tx chain).signer_id = tx.signer_id ∧
    (processChain tx chain).receiver_id = tx.receiver_id ∧
    (processChain tx chain).public_key = tx.public_key ∧
    (processChain tx chain).nonce = tx.nonce ∧
    (processChain tx chain).block_hash = tx.block_hash ∧
    (∀ a, (extendAction tx a).actions = tx.actions ++ [a]) ∧
    (∀ fc nonce pk, FunctionCallType.extendTransaction fc nonce pk tx =
      extendAction tx (FunctionCallType.builtAction fc nonce pk)) ∧
    (∀ code, ContractFile.extendTransaction code tx =
      extendAction tx (Action.deployContract code)) :=
  ⟨processChain_actions chain tx, (processChain_frame chain tx).1,
   (processChain_frame chain tx).2.1, (processChain_frame chain tx).2.2.1,
   (processChain_frame chain tx).2.2.2.1, (processChain_frame chain tx).2.2.2.2,
   fun _ => rfl, fun _ _ _ => rfl, fun _ => rfl⟩


/-- C1 counterexample: the flat/structured round trip fails on a
fully-populated function-call permission with two method names — the names
are joined with ", " but parsed back by splitting on "," alone, so the
second name comes back with a leading space. -/
theorem claim_C1_counterexample :
    FunctionCallType.fromCliFull (FunctionCallType.toCli
      ⟨some 1, "bob.near", ["mint", "burn"]⟩) ≠
      some ⟨some 1, "bob.near", ["mint", "burn"]⟩ := by decide

/-- C1 (amended): the round trip `fromCliFull (toCli t) = t` holds for a
fully-populated function-call permission whose allowance is present and whose
method-name list is empty or a single non-empty, comma-free name; it fails in
general (see the counterexample) because `toCli` joins names with ", " while
parsing splits on "," alone, and because a `None` allowance resurfaces as
`Some 0`. -/
theorem claim_C1 (t : FunctionCallType) (ha : t.allowance.isSome = true)
    (hm : t.method_names = [] ∨
      ∃ m : String, t.method_names = [m] ∧ m.data ≠ [] ∧ ',' ∉ m.data) :
    FunctionCallType.fromCliFull (FunctionCallType.toCli t) = some t := by
  obtain ⟨al, r, mn⟩ := t
  obtain ⟨a, rfl⟩ : ∃ a, al = some a := Option.isSome_iff_exists.mp ha
  rcases hm with hm | ⟨m, hm, hne, hnc⟩ <;> simp only at hm <;> subst hm
  · rfl
  · obtain ⟨l⟩ := m
    cases l with
    | nil => exact absurd rfl hne
    | cons c cs =>
      have hsplit : splitOnChar ',' (c :: cs) = [c :: cs] := splitOnChar_eq_single hnc
      simp [FunctionCallType.toCli, FunctionCallType.fromCliFull,
        methodNamesFromCliString, methodNamesSplit, joinSep,
        NearBalance.from_yoctonear, NearBalance.to_yoctonear, hsplit]

/-- C1 witness: the round trip holds at a fully-populated value with a
single comma-free method name. -/
theorem claim_C1_witness :
    FunctionCallType.fromCliFull (FunctionCallType.toCli
      ⟨some 5, "bob.near", ["mint"]⟩) = some ⟨some 5, "bob.near", ["mint"]⟩ :=
  claim_C1 ⟨some 5, "bob.near", ["mint"]⟩ rfl
    (Or.inr ⟨"mint", rfl, by decide, by decide⟩)

/-- C4 counterexample: a method-name input containing a double quote is NOT
coerced to the empty list when it arrives via the CLI token form — the quote
check exists only on the interactive prompt path. -/
theorem claim_C4_counterexample :
    methodNamesFromCliString (String.mk ['m', 'i', 'n', 't', quoteChar, 'b']) ≠ [] := by
  decide

/-- C4 (amended): an empty method-names input yields the empty allow-list on
both input paths; a non-empty input yields exactly the comma-separated names
(a single comma-free name parses to itself, and the two paths agree whenever
the input has no quote character); an input containing a quote character is
coerced to the empty list on the interactive prompt path only — the CLI token
path performs no quote check. -/
theorem claim_C4 :
    methodNamesFromCliString "" = [] ∧
    methodNamesFromPromptInput "" = [] ∧
    (∀ s : String, ¬ s.data.isEmpty = true → ',' ∉ s.data →
      methodNamesFromCliString s = [s]) ∧
    methodNamesFromCliString ("transfer,mint") = ["transfer", "mint"] ∧
    (∀ s : String, s.data.contains quoteChar = false →
      methodNamesFromPromptInput s = methodNamesFromCliString s) ∧
    (∀ s : String, s.data.contains quoteChar = true →
      methodNamesFromPromptInput s = []) ∧
    methodNamesFromPromptInput (String.mk ['m', 'i', 'n', 't', quoteChar, 'b']) = [] := by
  refine ⟨rfl, rfl, fun s hne hnc => ?_, by decide, fun s hq => ?_, fun s hq => ?_, by decide⟩
  · obtain ⟨l⟩ := s
    have hsplit : splitOnChar ',' l = [l] := splitOnChar_eq_single hnc
    simp only [methodNamesFromCliString, methodNamesSplit, if_neg hne, hsplit, List.map]
  · have hq' : quoteChar ∉ s.data := by simpa using hq
    simp [methodNamesFromPromptInput, methodNamesFromCliString, hq']
  · have hq' : quoteChar ∈ s.data := by simpa using hq
    simp [methodNamesFromPromptInput, methodNamesSplit, hq']

/-- C4 witness: the quote-coercion theorem applied at a concrete quoted
prompt input, and the single-name case at a concrete name. -/
theorem claim_C4_witness :
    methodNamesFromPromptInput (String.mk ['a', quoteChar, 'b']) = [] ∧
    methodNamesFromCliString ("mint") = ["mint"] :=
  ⟨claim_C4.2.2.2.2.2.1 (String.mk ['a', quoteChar, 'b']) (by decide),
   claim_C4.2.2.1 ("mint") (by decide) (by decide)⟩


/-- C2: in Network mode, when the access-key query succeeds with current
nonce n, the transaction handed to the device and wrapped into the signed
transaction carries nonce n + 1. -/
theorem claim_C2 (σ : Type) (devSign : Transaction → HdPath → Except String σ)
    (self : SignLedger) (prepop : Transaction) (cfg : ConnectionConfig)
    (queryResp : NetworkQuery → Except String RpcQueryResponse)
    (resp : RpcQueryResponse) (n : Nonce)
    (qs : List NetworkQuery) (st : SignedTransaction σ)
    (hq : queryResp (NetworkQuery.viewAccessKey prepop.signer_id self.signer_public_key) =
      .ok resp)
    (hn : resp.kind_access_key_nonce = some n)
    (hok : SignLedger.process σ devSign self prepop (some cfg) queryResp = (qs, .ok st)) :
    st.transaction.nonce = n + 1 := by
  simp only [SignLedger.process, hq, hn] at hok
  split at hok
  · rename_i sig hds
    injection hok with h1 h2
    injection h2 with h3
    subst h3
    rfl
  · rename_i e hds
    injection hok with h1 h2
    exact Except.noConfusion h2

/-- C2 witness: querying nonce 5 yields a signed transaction with nonce 6. -/
theorem claim_C2_witness : wStOnline.transaction.nonce = 5 + 1 :=
  claim_C2 wSig wDevSign wSelf wPrepop ConnectionConfig.testnet wQueryResp
    ⟨99, some 5⟩ 5 [NetworkQuery.viewAccessKey ("alice") 7] wStOnline rfl rfl rfl

/-- C7: over any prepopulated action chain result, the Ledger signing path
issues no network query in Offline mode, and in Network mode issues exactly
one query — the view-access-key query for the signer account and the device
public key — before signing. -/
theorem claim_C7 (σ : Type) (devSign : Transaction → HdPath → Except String σ)
    (self : SignLedger) (prepop : Transaction)
    (queryResp : NetworkQuery → Except String RpcQueryResponse) :
    (SignLedger.process σ devSign self prepop none queryResp).1 = [] ∧
    ∀ cfg : ConnectionConfig,
      (SignLedger.process σ devSign self prepop (some cfg) queryResp).1 =
        [NetworkQuery.viewAccessKey prepop.signer_id self.signer_public_key] := by
  constructor
  · simp only [SignLedger.process]
    split <;> rfl
  · intro cfg
    simp only [SignLedger.process]
    split
    · rfl
    · split
      · rfl
      · split <;> rfl

/-- C9: signing leaves the skeleton's action list, sender and receiver
account ids unchanged — only public_key, nonce and block_hash are populated —
and, assuming the signing-device library contract (a signature produced for
an HD path verifies against that path's public key) and a signer whose
public key was fetched from its own HD path, the resulting signature
verifies against the signed transaction's declared public key. -/
theorem claim_C9 (σ : Type) (devSign : Transaction → HdPath → Except String σ)
    (devPub : HdPath → PublicKey) (verify : σ → PublicKey → Transaction → Bool)
    (hlib : ∀ tx path s, devSign tx path = .ok s → verify s (devPub path) tx = true)
    (self : SignLedger) (hpk : self.signer_public_key = devPub self.seed_phrase_hd_path)
    (prepop : Transaction) (cfg : Option ConnectionConfig)
    (queryResp : NetworkQuery → Except String RpcQueryResponse)
    (qs : List NetworkQuery) (st : SignedTransaction σ)
    (hok : SignLedger.process σ devSign self prepop cfg queryResp = (qs, .ok st)) :
    st.transaction.signer_id = prepop.signer_id ∧
    st.transaction.receiver_id = prepop.receiver_id ∧
    st.transaction.actions = prepop.actions ∧
    verify st.signature st.transaction.public_key st.transaction = true := by
  cases cfg with
  | none =>
    simp only [SignLedger.process] at hok
    split at hok
    · rename_i sig hds
      injection hok with h1 h2
      injection h2 with h3
      subst h3
      refine ⟨rfl, rfl, rfl, ?_⟩
      have hv := hlib _ self.seed_phrase_hd_path sig hds
      rw [hpk] at hv ⊢
      exact hv
    · rename_i e hds
      injection hok with h1 h2
      exact Except.noConfusion h2
  | some c =>
    simp only [SignLedger.process] at hok
    split at hok
    · rename_i e hq
      injection hok with h1 h2
      exact Except.noConfusion h2
    · rename_i resp hq
      split at hok
      · rename_i hn
        injection hok with h1 h2
        exact Except.noConfusion h2
      · rename_i current hn
        split at hok
        · rename_i sig hds
          injection hok with h1 h2
          injection h2 with h3
          subst h3
          refine ⟨rfl, rfl, rfl, ?_⟩
          have hv := hlib _ self.seed_phrase_hd_path sig hds
          rw [hpk] at hv ⊢
          exact hv
        · rename_i e hds
          injection hok with h1 h2
          exact Except.noConfusion h2

/-- C9 witness: the frame and verification conclusions at a concrete Offline
run with the transparent device model. -/
theorem claim_C9_witness :
    wStOffline.transaction.signer_id = wPrepop.signer_id ∧
    wStOffline.transaction.receiver_id = wPrepop.receiver_id ∧
    wStOffline.transaction.actions = wPrepop.actions ∧
    wVerify wStOffline.signature wStOffline.transaction.public_key
      wStOffline.transaction = true :=
  claim_C9 wSig wDevSign wDevPub wVerify
    (fun tx path s h => by
      cases h
      simp [wVerify])
    wSelf rfl wPrepop none (fun _ => .error "no network") [] wStOffline rfl

/-- C10: with a connection config present, `SignLedger::from` discards any
CLI-supplied nonce and block hash (both fields are `None`), and the Network
signing path never reads the signer's stored nonce/block-hash — the values
used come only from the network query. -/
theorem claim_C10 (devPub : HdPath → PublicKey) (item : CliSignLedger)
    (cfg : ConnectionConfig) (promptHdPath : HdPath) (promptNonce : Nonce)
    (promptBlockHash : CryptoHash) :
    (SignLedger.fromCli devPub item (some cfg) promptHdPath promptNonce
      promptBlockHash).nonce = none ∧
    (SignLedger.fromCli devPub item (some cfg) promptHdPath promptNonce
      promptBlockHash).block_hash = none ∧
    (∀ (σ : Type) (devSign : Transaction → HdPath → Except String σ)
      (self : SignLedger) (n : Option Nonce) (b : Option CryptoHash)
      (prepop : Transaction)
      (queryResp : NetworkQuery → Except String RpcQueryResponse),
      SignLedger.process σ devSign
        { self with nonce := n, block_hash := b } prepop (some cfg) queryResp =
      SignLedger.process σ devSign self prepop (some cfg) queryResp) := by
  refine ⟨rfl, rfl, fun σ devSign self n b prepop queryResp => ?_⟩
  cases self
  rfl

end NearCli
